import Mathlib

/-!
# Verification of the FFmpeg-helper binary acquisition and stream-probe library

Shallow embedding of the Go package `ffmpeghelper` (files `ffmpeg.go`,
`video.go`).  Side-effecting Go functions are modelled as pure Lean
functions over explicit environment records that describe the outcome of
each external interaction (HTTP responses, filesystem probes, process
invocations); byte strings are `List Nat`, Go strings are Lean `String`,
and the MD5 hash is an explicit function parameter since only the
comparison logic (never the hash internals) is exercised by the code.
-/

set_option autoImplicit false

namespace FfmpegHelper

/-- The distinct Go `error` values that can flow through the package.
Each constructor stands for one concrete error producer in the source:
`downloadFailed` is `errDownloadFailed`, `fileCorrupted` is
`errFileCorrupted`, `notFound` is `errFfmpegNotFound`, `tsFetchFailed` /
`tsParseFailed` are the video.go errors, and the rest stand for the
errors produced by the OS or library calls and returned verbatim. -/
inductive GoErr where
  | reqErr          -- http.NewRequest error
  | transport       -- httpClient.Do error
  | downloadFailed  -- errDownloadFailed ("binary fetching failed")
  | createErr       -- os.Create error
  | copyErr         -- io.Copy error while writing the download
  | decodeErr       -- base64.StdEncoding.DecodeString error
  | openErr         -- os.Open error in verifyMd5
  | readErr         -- io.Copy error in verifyMd5
  | fileCorrupted   -- errFileCorrupted ("binary sha256 mismatch")
  | mkdirErr        -- os.MkdirAll error
  | chmodErr        -- os.Stat/os.Chmod error in chmodExec
  | notFound        -- errFfmpegNotFound ("cannot find executable ffmpeg")
  | tsFetchFailed   -- errTsFetchFailed ("failed to fetch ts url")
  | tsParseFailed   -- errTsParseFailed ("failed to parse ts url")
  deriving DecidableEq, Repr

/-! ## String helpers (models of the Go `strings`/`path/filepath` calls) -/

/-- Model of Go `strings.TrimSuffix(s, suf)`: drop `suf` from the end of
`s` when it is a suffix, else return `s` unchanged. -/
def trimSuffix (s suf : List Char) : List Char :=
  if suf.isSuffixOf s then s.take (s.length - suf.length) else s

/-- Model of Go `strings.Split(s, "\r\n")`: split at each (leftmost,
non-overlapping) occurrence of the two-character separator.  Always
returns at least one part. -/
def splitCRLF : List Char → List (List Char)
  | [] => [[]]
  | '\r' :: '\n' :: rest => [] :: splitCRLF rest
  | c :: rest =>
    match splitCRLF rest with
    | [] => [[c]]
    | h :: t => (c :: h) :: t

/-- Model of the Go slice `url[:strings.LastIndex(url, "/")+1]`: everything
up to and including the last slash, or the empty string when there is no
slash (`LastIndex` returns `-1` and the slice is empty). -/
def urlDirOf (s : List Char) : List Char :=
  ((s.reverse.dropWhile (fun c => c ≠ '/')).reverse)

end FfmpegHelper

namespace FfmpegHelper

/-! ## ffmpeg.go: platform identification and path helpers -/

/-- Model of Go `filepath.Join(a, b)` (no cleaning beyond what the
claims exercise): the two components separated by one slash. -/
def joinPath (a b : String) : String := a ++ "/" ++ b

/-- Model of Go `filepath.IsAbs(p)` on unix: the path starts with a
slash. -/
def isAbsPath (p : String) : Bool :=
  match p.data with
  | '/' :: _ => true
  | _ => false

/-- Model of Go `filepath.Abs(p)`: an absolute path (leading slash) is
returned unchanged, a relative one is resolved against the working
directory. -/
def absPath (cwd p : String) : String :=
  if isAbsPath p then p else joinPath cwd p

/-- Model of Go `filepath.Dir(p)`: everything before the last slash
(the directory containing `p`). -/
def filepathDir (p : String) : String :=
  String.mk (((p.data.reverse.dropWhile (fun c => c ≠ '/')).drop 1).reverse)

/-- Static facts about the process environment that ffmpeg.go reads:
the outcome of `os.UserHomeDir`, `runtime.GOOS`, `runtime.GOARCH`,
`os.Executable` (its error is discarded by the source), and the working
directory used by `filepath.Abs`. -/
structure SysEnv where
  home : Option String
  goos : String
  goarch : String
  exe : String
  cwd : String

/-- Model of `getUserBinDir` (ffmpeg.go lines 18-38): with a home
directory, an OS-conventional per-user binary directory; on a home
lookup error, `filepath.Abs` of the value returned by `os.Executable()`
itself (the source does not take `filepath.Dir` of it). -/
def getUserBinDir (env : SysEnv) : String :=
  match env.home with
  | some home =>
    let d :=
      if env.goos = "windows" then
        joinPath (joinPath (joinPath home "AppData") "Local") "Programs"
      else
        joinPath (joinPath home ".local") "bin"
    absPath env.cwd d
  | none => absPath env.cwd env.exe

/-- Model of `getFfmpegVariant` (ffmpeg.go lines 54-77): map GOARCH to
the release alias, with the android special case for 32-bit ARM and
pass-through for unrecognized architectures, then prepend GOOS. -/
def getFfmpegVariant (goos goarch : String) : String :=
  let a :=
    if goarch = "amd64" then "x86_64"
    else if goarch = "386" then "i686"
    else if goarch = "arm" then
      (if goos = "android" then "armv7a" else "armhf")
    else if goarch = "arm64" then "aarch64"
    else if goarch = "loong64" then "loongarch64"
    else goarch
  goos ++ "_" ++ a

/-- Model of `getFfmpegName` (ffmpeg.go lines 79-89): base name
`ffmpeg`, variant-qualified when the variant is non-empty, with `.exe`
appended on windows. -/
def getFfmpegName (goos variant : String) : String :=
  let name := "ffmpeg"
  let name := if variant ≠ "" then name ++ "_" ++ variant else name
  if goos = "windows" then name ++ ".exe" else name

/-! ## ffmpeg.go: the executable locator -/

/-- What the locator observes about the filesystem and the processes it
spawns: `stat p` is `none` when `os.Stat` fails and `some isDir`
otherwise; `runOk p` tells whether running `p -version` exits without
error; `lookPath n` is the result of `exec.LookPath(n)`; `execDir` and
`userBinDir` are the values of `getExecDir()` and `getUserBinDir()` for
the current process. -/
structure FsEnv where
  stat : String → Option Bool
  runOk : String → Bool
  lookPath : String → Option String
  execDir : String
  userBinDir : String

/-- Model of `isValidFfmpegExe` (ffmpeg.go lines 40-52): the candidate
must stat successfully, not be a directory, and run `-version` without
error. -/
def isValidFfmpegExe (env : FsEnv) (path : String) : Bool :=
  match env.stat path with
  | none => false
  | some isDir => if isDir then false else env.runOk path

/-- The per-name search of `GetFfmpegPath` (ffmpeg.go lines 108-121):
for each candidate name, try the executable's directory, then the user
binary directory, then the system path, returning the first valid
candidate; fall through to the next name, and to `""` at the end. -/
def searchNames (env : FsEnv) : List String → String
  | [] => ""
  | name :: rest =>
    let p1 := joinPath env.execDir name
    if isValidFfmpegExe env p1 then p1
    else
      let p2 := joinPath env.userBinDir name
      if isValidFfmpegExe env p2 then p2
      else
        match env.lookPath name with
        | some p => if isValidFfmpegExe env p then p else searchNames env rest
        | none => searchNames env rest

/-- Model of `GetFfmpegPath` (ffmpeg.go lines 103-123): search for the
plain executable name, and additionally for `libffmpeg.so` on android. -/
def GetFfmpegPath (env : FsEnv) (goos : String) : String :=
  let names :=
    if goos = "android" then [getFfmpegName goos "", "libffmpeg.so"]
    else [getFfmpegName goos ""]
  searchNames env names

/-! ## video.go: `m3u8GetTsUrl` -/

/-- Outcome of the single `http.Get` issued by `m3u8GetTsUrl`: either a
connection error or a response with a status code and a body.  The body
read error of `io.ReadAll` is discarded by the source (`body, _ :=`), so
it is not modelled. -/
structure TsResp where
  status : Nat
  body : List Char
  deriving DecidableEq, Repr

/-- Model of `m3u8GetTsUrl` (video.go lines 20-37): on a non-200 status
fail with `errTsFetchFailed`; otherwise trim one trailing CRLF, split the
body on CRLF, and resolve the last part against the directory of the
playlist URL; the `len(parts) > 0` guard falls through to
`errTsParseFailed`. -/
def m3u8GetTsUrl (resp : Except Unit TsResp) (url : List Char) :
    Except GoErr (List Char) :=
  match resp with
  | .error _ => .error .transport
  | .ok res =>
    if res.status ≠ 200 then .error .tsFetchFailed
    else
      let parts := splitCRLF (trimSuffix res.body ['\r', '\n'])
      if h : parts.length > 0 then
        let ts := parts.getLast (by
          intro hnil; rw [hnil] at h; simp at h)
        .ok (urlDirOf url ++ ts)
      else .error .tsParseFailed

end FfmpegHelper

namespace FfmpegHelper

/-! ## ffmpeg.go: the integrity-checked downloader -/

/-- The expected-digest header of a download response
(`X-Ms-Blob-Content-Md5`): absent, present but not valid base64, or
present and decoding to the given bytes. -/
inductive HeaderVal where
  | absent
  | malformed
  | digest (sum : List Nat)
  deriving DecidableEq, Repr

/-- An HTTP response observed by `downloadFile`: status code, body
bytes, and the expected-digest header. -/
structure HttpResp where
  status : Nat
  body : List Nat
  md5Header : HeaderVal
  deriving DecidableEq, Repr

/-- Everything the environment decides about one `downloadFile` call:
whether `http.NewRequest` fails, the outcome of `httpClient.Do`
(connection error or a response), whether `os.Create` fails, whether
`io.Copy` fails after writing a prefix of the body, and whether the
re-read inside `verifyMd5` fails. -/
structure AttemptSpec where
  newReqFails : Bool
  doResult : Except Unit HttpResp
  createFails : Bool
  copyFailsAfter : Option Nat
  verifyReadFails : Bool

/-- Model of `verifyMd5` (ffmpeg.go lines 172-184): open the file at
the path (its current content is `content`, `none` when it does not
exist), hash it, and compare the expected digest against the computed
one; on success the error component is `nil` whatever the comparison
said. -/
def verifyMd5 (md5 : List Nat → List Nat) (content : Option (List Nat))
    (readFails : Bool) (sum : List Nat) : Bool × Option GoErr :=
  match content with
  | none => (false, some .openErr)
  | some bytes =>
    if readFails then (false, some .readErr)
    else (decide (sum = md5 bytes), none)

/-- Model of `downloadFile` (ffmpeg.go lines 134-170) acting on the
destination file's current content `fs`: require a 200 status, truncate
and write the body (`os.Create` + `io.Copy`), then check the
expected-digest header.  The source returns `nil` when `verifyMd5`
reports equal digests, and otherwise returns `verifyMd5`'s error — which
is also `nil` when the digests merely differ; the distinct
`errFileCorrupted` is returned only when the header is absent. -/
def downloadFile (md5 : List Nat → List Nat) (a : AttemptSpec)
    (fs : Option (List Nat)) : Option (List Nat) × Option GoErr :=
  if a.newReqFails then (fs, some .reqErr)
  else
    match a.doResult with
    | .error _ => (fs, some .transport)
    | .ok res =>
      if res.status ≠ 200 then (fs, some .downloadFailed)
      else if a.createFails then (fs, some .createErr)
      else
        match a.copyFailsAfter with
        | some n => (some (res.body.take n), some .copyErr)
        | none =>
          let fs' := some res.body
          match res.md5Header with
          | .digest sum =>
            let r := verifyMd5 md5 fs' a.verifyReadFails sum
            if r.1 then (fs', none) else (fs', r.2)
          | .malformed => (fs', some .decodeErr)
          | .absent => (fs', some .fileCorrupted)

/-- The mirror URL prefixes of `FetchFfmpeg` (ffmpeg.go lines 220-224),
in the order the loop tries them; the empty prefix (the direct URL) is
last. -/
def mirrorList : List String :=
  ["https://ghfast.top/", "https://gh-proxy.com/", ""]

/-- The release URL built by `FetchFfmpeg` (ffmpeg.go lines 205-207). -/
def releaseUrl (goos goarch : String) : String :=
  "https://github.com/StellarForager/FFmpeg/releases/latest/download/"
    ++ getFfmpegName goos (getFfmpegVariant goos goarch)

/-- What `FetchFfmpeg`'s environment decides: the process facts, the
behavior of each attempted URL, and whether `os.MkdirAll` / `chmodExec`
fail. -/
structure FetchEnv where
  sys : SysEnv
  resp : String → AttemptSpec
  mkdirFails : Bool
  chmodFails : Bool

/-- Result of the mirror loop: final destination-file content, the
`isDownloadFailed` flag, the last `dlErr`, and the URLs attempted in
order. -/
structure LoopOut where
  file : Option (List Nat)
  failed : Bool
  lastErr : Option GoErr
  tried : List String

/-- The mirror loop of `FetchFfmpeg` (ffmpeg.go lines 217-232): try
`proxy+url` for each prefix in order, stopping at the first attempt
whose `downloadFile` returns `nil`, remembering the last error
otherwise. -/
def fetchLoop (md5 : List Nat → List Nat) (resp : String → AttemptSpec)
    (url : String) :
    List String → Option (List Nat) → Option GoErr → LoopOut
  | [], fs, lastErr => ⟨fs, true, lastErr, []⟩
  | p :: ps, fs, lastErr =>
    let r := downloadFile md5 (resp (p ++ url)) fs
    match r.2 with
    | none => ⟨r.1, false, lastErr, [p ++ url]⟩
    | some e =>
      let rest := fetchLoop md5 resp url ps r.1 (some e)
      ⟨rest.file, rest.failed, rest.lastErr, (p ++ url) :: rest.tried⟩

/-- Result of `FetchFfmpeg`: the Go `(string, error)` pair, the final
destination-file content, and the URLs attempted. -/
structure FetchOut where
  result : String × Option GoErr
  file : Option (List Nat)
  tried : List String

/-- Model of `FetchFfmpeg` (ffmpeg.go lines 203-242): build the release
URL, create the user binary directory, run the mirror loop against the
destination path, `os.Remove` the destination when every mirror failed,
then `chmodExec` the file; a chmod error is returned with the file left
in place. -/
def FetchFfmpeg (md5 : List Nat → List Nat) (env : FetchEnv)
    (fs0 : Option (List Nat)) : FetchOut :=
  let url := releaseUrl env.sys.goos env.sys.goarch
  if env.mkdirFails then ⟨("", some .mkdirErr), fs0, []⟩
  else
    let path := joinPath (getUserBinDir env.sys) (getFfmpegName env.sys.goos "")
    let r := fetchLoop md5 env.resp url mirrorList fs0 none
    if r.failed then ⟨("", r.lastErr), none, r.tried⟩
    else if env.chmodFails then ⟨("", some .chmodErr), r.file, r.tried⟩
    else ⟨(path, none), r.file, r.tried⟩

/-! ## ffmpeg.go: the resolver (`Ffmpeg`) -/

/-- Everything one `Ffmpeg()` call observes: the MD5 function, the
download environment and the destination file's prior content, and the
filesystem as the locator sees it before and after the download (the
download's effect on the filesystem reaches the locator only through
the real OS, so the post-download view is a separate field). -/
structure ResolveEnv where
  md5 : List Nat → List Nat
  fetchEnv : FetchEnv
  fs0 : Option (List Nat)
  fsBefore : FsEnv
  fsAfter : FsEnv

/-- Result of one `Ffmpeg()` call: the returned `(string, error)` pair,
the new value of the process-wide `ffmpegPath` cache, and effect
counters (how many times `GetFfmpegPath` ran and whether `FetchFfmpeg`
ran). -/
structure RunOut where
  path : String
  err : Option GoErr
  cache : String
  locates : Nat
  fetched : Bool
  deriving DecidableEq, Repr

/-- Model of `Ffmpeg` (ffmpeg.go lines 255-277) acting on the cached
`ffmpegPath`: return the cache when non-empty; else locate; else fetch
and propagate its error; else re-locate and either cache the found path
or fail with `errFfmpegNotFound`. -/
def Ffmpeg (env : ResolveEnv) (ffmpegPath : String) : RunOut :=
  if ffmpegPath ≠ "" then ⟨ffmpegPath, none, ffmpegPath, 0, false⟩
  else
    let p := GetFfmpegPath env.fsBefore env.fetchEnv.sys.goos
    if p ≠ "" then ⟨p, none, p, 1, false⟩
    else
      match (FetchFfmpeg env.md5 env.fetchEnv env.fs0).result.2 with
      | some e => ⟨"", some e, ffmpegPath, 1, true⟩
      | none =>
        let p2 := GetFfmpegPath env.fsAfter env.fetchEnv.sys.goos
        if p2 ≠ "" then ⟨p2, none, p2, 2, true⟩
        else ⟨"", some .notFound, ffmpegPath, 2, true⟩

end FfmpegHelper

namespace FfmpegHelper

/-- `splitCRLF` never returns the empty list of parts: every arm of the
match produces a cons cell, mirroring Go's `strings.Split`, which always
returns at least one element. -/
theorem splitCRLF_ne_nil (s : List Char) : splitCRLF s ≠ [] := by
  rw [splitCRLF.eq_def]
  split
  · simp
  · simp
  · split <;> simp

/-- C9: for the playlist body `"seg1.ts\r\nseg2.ts\r\n"` fetched with
status 200 from `http://host/path/index.m3u8`, `m3u8GetTsUrl` returns
`http://host/path/seg2.ts` (the last segment reference resolved against
the playlist URL's directory) with no error. -/
theorem m3u8GetTsUrl_two_segments :
    m3u8GetTsUrl (Except.ok ⟨200, "seg1.ts\r\nseg2.ts\r\n".data⟩)
        "http://host/path/index.m3u8".data
      = Except.ok "http://host/path/seg2.ts".data := by
  rfl

/-- Any non-empty result of the per-name search is a candidate that
passed `isValidFfmpegExe` at the moment it was returned. -/
theorem searchNames_valid (env : FsEnv) :
    ∀ names : List String, searchNames env names ≠ "" →
      isValidFfmpegExe env (searchNames env names) = true := by
  intro names
  induction names with
  | nil => intro h; exact absurd rfl h
  | cons name rest ih =>
    intro h
    simp only [searchNames] at h ⊢
    by_cases h1 : isValidFfmpegExe env (joinPath env.execDir name) = true
    · rw [if_pos h1] at h ⊢; exact h1
    · rw [if_neg h1] at h ⊢
      by_cases h2 : isValidFfmpegExe env (joinPath env.userBinDir name) = true
      · rw [if_pos h2] at h ⊢; exact h2
      · rw [if_neg h2] at h ⊢
        cases hlp : env.lookPath name with
        | none => rw [hlp] at h; exact ih h
        | some p =>
          rw [hlp] at h
          replace h :
              (if isValidFfmpegExe env p = true then p
                else searchNames env rest) ≠ "" := h
          show isValidFfmpegExe env
              (if isValidFfmpegExe env p = true then p
                else searchNames env rest) = true
          by_cases h3 : isValidFfmpegExe env p = true
          · rw [if_pos h3]; exact h3
          · rw [if_neg h3] at h ⊢; exact ih h

/-- When no path at all validates, the per-name search falls through to
the empty string. -/
theorem searchNames_all_invalid (env : FsEnv)
    (hall : ∀ p, isValidFfmpegExe env p = false) :
    ∀ names : List String, searchNames env names = "" := by
  intro names
  induction names with
  | nil => rfl
  | cons name rest ih =>
    simp only [searchNames]
    rw [if_neg (by simp [hall]), if_neg (by simp [hall])]
    cases hlp : env.lookPath name with
    | none => exact ih
    | some p =>
      show (if isValidFfmpegExe env p = true then p
          else searchNames env rest) = ""
      rw [if_neg (by simp [hall])]
      exact ih

/-- C3: `GetFfmpegPath` never returns a non-empty path that fails the
validity check (existing, not a directory, and the `-version` probe
succeeding); and when every candidate path is invalid — in particular
when each directory holds only a non-executable file with the expected
name — it returns the empty string. -/
theorem GetFfmpegPath_sound (env : FsEnv) (goos : String) :
    (GetFfmpegPath env goos ≠ "" →
      isValidFfmpegExe env (GetFfmpegPath env goos) = true) ∧
    ((∀ p, isValidFfmpegExe env p = false) → GetFfmpegPath env goos = "") :=
  ⟨fun h => searchNames_valid env _ h,
   fun hall => searchNames_all_invalid env hall _⟩

/-- Environment for the C3 witness in which the expected name is a
valid executable in the process's directory. -/
def fsEnvFound : FsEnv :=
  ⟨fun p => if p = "/x/ffmpeg" then some false else none,
   fun _ => true, fun _ => none, "/x", "/y"⟩

/-- Environment for the C3 witness in which every path stats as an
existing non-directory file whose `-version` probe fails. -/
def fsEnvProbeFails : FsEnv :=
  ⟨fun _ => some false, fun _ => false, fun _ => none, "/x", "/y"⟩

/-- Witness for C3: in `fsEnvFound` the locator returns a valid path,
and in `fsEnvProbeFails` (only non-executable files) it returns `""`. -/
theorem GetFfmpegPath_sound_witness :
    isValidFfmpegExe fsEnvFound (GetFfmpegPath fsEnvFound "linux") = true ∧
    GetFfmpegPath fsEnvProbeFails "linux" = "" :=
  ⟨(GetFfmpegPath_sound fsEnvFound "linux").1 (by decide),
   (GetFfmpegPath_sound fsEnvProbeFails "linux").2 (fun p => rfl)⟩

/-- C7: for every (OS, architecture) pair, `getFfmpegVariant` returns
the tag `{os}_{archAlias}`, where `amd64 ↦ x86_64`, `386 ↦ i686`,
`arm ↦ armhf` (`armv7a` when the OS is android), `arm64 ↦ aarch64`,
`loong64 ↦ loongarch64`, and any other architecture passes through
unchanged; the function is total, so there is no error path. -/
theorem getFfmpegVariant_spec (o a : String) :
    getFfmpegVariant o "amd64" = o ++ "_" ++ "x86_64" ∧
    getFfmpegVariant o "386" = o ++ "_" ++ "i686" ∧
    getFfmpegVariant "android" "arm" = "android" ++ "_" ++ "armv7a" ∧
    (o ≠ "android" → getFfmpegVariant o "arm" = o ++ "_" ++ "armhf") ∧
    getFfmpegVariant o "arm64" = o ++ "_" ++ "aarch64" ∧
    getFfmpegVariant o "loong64" = o ++ "_" ++ "loongarch64" ∧
    (a ≠ "amd64" → a ≠ "386" → a ≠ "arm" → a ≠ "arm64" → a ≠ "loong64" →
      getFfmpegVariant o a = o ++ "_" ++ a) := by
  refine ⟨rfl, rfl, rfl, fun h => ?_, rfl, rfl, fun h1 h2 h3 h4 h5 => ?_⟩
  · simp [getFfmpegVariant, h]
  · simp [getFfmpegVariant, h1, h2, h3, h4, h5]

/-- Witness for C7 at `o = "linux"`, `a = "riscv64"`. -/
theorem getFfmpegVariant_spec_witness :
    getFfmpegVariant "linux" "amd64" = "linux" ++ "_" ++ "x86_64" ∧
    getFfmpegVariant "linux" "arm" = "linux" ++ "_" ++ "armhf" ∧
    getFfmpegVariant "linux" "riscv64" = "linux" ++ "_" ++ "riscv64" :=
  ⟨(getFfmpegVariant_spec "linux" "riscv64").1,
   (getFfmpegVariant_spec "linux" "riscv64").2.2.2.1 (by decide),
   (getFfmpegVariant_spec "linux" "riscv64").2.2.2.2.2.2
     (by decide) (by decide) (by decide) (by decide) (by decide)⟩

/-- C8 counter-evidence: when the home directory cannot be determined,
`getUserBinDir` returns the absolute path of the executable itself,
which differs from the directory containing it (the directory would be
`filepathDir` of that path), contradicting the source's own comment
"fallback to the executable's dir on error". -/
theorem getUserBinDir_fallback_is_exe_path :
    getUserBinDir ⟨none, "linux", "amd64", "/opt/app/tool", "/work"⟩
        = "/opt/app/tool" ∧
    filepathDir "/opt/app/tool" = "/opt/app" ∧
    ("/opt/app/tool" : String) ≠ "/opt/app" := by
  exact ⟨rfl, rfl, by decide⟩

/-- C1 counter-evidence: for a 200 response whose expected-digest header
decodes to `[2]` while the written body `[1]` hashes to `[1]` (the hash
function is the identity here), `downloadFile` returns `nil` — success —
and leaves the mismatched file in place, instead of deleting it and
returning the distinct corruption error. -/
theorem downloadFile_mismatch_returns_nil :
    (fun b => b) [1] ≠ ([2] : List Nat) ∧
    downloadFile (fun b => b)
        ⟨false, Except.ok ⟨200, [1], HeaderVal.digest [2]⟩, false, none, false⟩
        none
      = (some [1], none) :=
  ⟨by decide, rfl⟩

/-- C2 counter-evidence: with every mirror returning a 200 response
whose body `[1]` mismatches the declared digest `[2]`, the (buggy)
verification reports success, so the loop stops at the first mirror;
a subsequent `chmodExec` failure then makes `FetchFfmpeg` return an
error while the corrupt file is still at the destination path. -/
theorem FetchFfmpeg_error_leaves_corrupt_file :
    (FetchFfmpeg (fun b => b)
        ⟨⟨some "/home/u", "linux", "amd64", "/exe", "/w"⟩,
          fun _ =>
            ⟨false, Except.ok ⟨200, [1], HeaderVal.digest [2]⟩, false, none,
              false⟩,
          false, true⟩ none).result
      = ("", some GoErr.chmodErr) ∧
    (FetchFfmpeg (fun b => b)
        ⟨⟨some "/home/u", "linux", "amd64", "/exe", "/w"⟩,
          fun _ =>
            ⟨false, Except.ok ⟨200, [1], HeaderVal.digest [2]⟩, false, none,
              false⟩,
          false, true⟩ none).file
      = some [1] ∧
    (fun b => b) [1] ≠ ([2] : List Nat) :=
  ⟨rfl, rfl, by decide⟩

/-- C4: when the cache is empty, the first locator run finds nothing and
the download pipeline reports success, `Ffmpeg` re-runs the locator
(`locates = 2`); if that re-run also finds nothing it returns the
distinct `errFfmpegNotFound` and the empty path, not the downloaded
path. -/
theorem Ffmpeg_notFound_after_install (env : ResolveEnv)
    (h1 : GetFfmpegPath env.fsBefore env.fetchEnv.sys.goos = "")
    (h2 : (FetchFfmpeg env.md5 env.fetchEnv env.fs0).result.2 = none)
    (h3 : GetFfmpegPath env.fsAfter env.fetchEnv.sys.goos = "") :
    Ffmpeg env "" = ⟨"", some GoErr.notFound, "", 2, true⟩ := by
  simp only [Ffmpeg, h1, h2, h3]
  simp

/-- A locator environment in which no candidate path even exists. -/
def fsEnvNothing : FsEnv :=
  ⟨fun _ => none, fun _ => false, fun _ => none, "/x", "/y"⟩

/-- A download environment in which every mirror returns a 200 response
whose body matches the declared digest, and mkdir/chmod succeed. -/
def fetchEnvOk : FetchEnv :=
  ⟨⟨some "/home/u", "linux", "amd64", "/exe", "/w"⟩,
   fun _ => ⟨false, Except.ok ⟨200, [1], HeaderVal.digest [1]⟩, false, none,
     false⟩,
   false, false⟩

/-- A resolver environment for the C4 witness: the locator sees nothing
before or after, and the download itself succeeds. -/
def resolveEnvGhost : ResolveEnv :=
  ⟨fun b => b, fetchEnvOk, none, fsEnvNothing, fsEnvNothing⟩

/-- Witness for C4 at `resolveEnvGhost`. -/
theorem Ffmpeg_notFound_after_install_witness :
    Ffmpeg resolveEnvGhost "" = ⟨"", some GoErr.notFound, "", 2, true⟩ :=
  Ffmpeg_notFound_after_install resolveEnvGhost rfl rfl rfl

/-- A successful `Ffmpeg` call stores the returned path — which is
non-empty — in the process-wide cache. -/
theorem Ffmpeg_success_cache (env : ResolveEnv) (c : String)
    (h : (Ffmpeg env c).err = none) :
    (Ffmpeg env c).cache = (Ffmpeg env c).path ∧ (Ffmpeg env c).path ≠ "" := by
  by_cases hc : c ≠ ""
  · have e1 : Ffmpeg env c = ⟨c, none, c, 0, false⟩ := by
      simp only [Ffmpeg]; rw [if_pos hc]
    rw [e1]; exact ⟨rfl, hc⟩
  · by_cases hp : GetFfmpegPath env.fsBefore env.fetchEnv.sys.goos ≠ ""
    · have e1 : Ffmpeg env c =
          ⟨GetFfmpegPath env.fsBefore env.fetchEnv.sys.goos, none,
            GetFfmpegPath env.fsBefore env.fetchEnv.sys.goos, 1, false⟩ := by
        simp only [Ffmpeg]; rw [if_neg hc, if_pos hp]
      rw [e1]; exact ⟨rfl, hp⟩
    · cases hf : (FetchFfmpeg env.md5 env.fetchEnv env.fs0).result.2 with
      | some e =>
        have e1 : Ffmpeg env c = ⟨"", some e, c, 1, true⟩ := by
          simp only [Ffmpeg]; rw [if_neg hc, if_neg hp, hf]
        rw [e1] at h; simp at h
      | none =>
        by_cases hp2 : GetFfmpegPath env.fsAfter env.fetchEnv.sys.goos ≠ ""
        · have e1 : Ffmpeg env c =
              ⟨GetFfmpegPath env.fsAfter env.fetchEnv.sys.goos, none,
                GetFfmpegPath env.fsAfter env.fetchEnv.sys.goos, 2, true⟩ := by
            simp only [Ffmpeg]; rw [if_neg hc, if_neg hp, hf, if_pos hp2]
          rw [e1]; exact ⟨rfl, hp2⟩
        · have e1 : Ffmpeg env c = ⟨"", some GoErr.notFound, c, 2, true⟩ := by
            simp only [Ffmpeg]; rw [if_neg hc, if_neg hp, hf, if_neg hp2]
          rw [e1] at h; simp at h

/-- C6: if a call to `Ffmpeg` succeeds with some path, the next call —
whatever its environment `env2` is — returns the identical path with no
error straight from the cache, running the locator zero times (no
re-validation) and never invoking the download pipeline (no network
request). -/
theorem Ffmpeg_idempotent (env1 env2 : ResolveEnv) (c : String)
    (h : (Ffmpeg env1 c).err = none) :
    Ffmpeg env2 (Ffmpeg env1 c).cache =
      ⟨(Ffmpeg env1 c).path, none, (Ffmpeg env1 c).path, 0, false⟩ := by
  obtain ⟨hcp, hne⟩ := Ffmpeg_success_cache env1 c h
  rw [hcp]
  generalize hgen : (Ffmpeg env1 c).path = p at *
  unfold Ffmpeg
  rw [if_pos hne]

/-- A resolver environment for the C6 witness in which the locator
finds a working executable at once. -/
def resolveEnvHit : ResolveEnv :=
  ⟨fun b => b, fetchEnvOk, none, fsEnvFound, fsEnvFound⟩

/-- A second, hostile resolver environment for the C6 witness: every
download attempt hits a connection error and the locator sees nothing;
the cached second call succeeds all the same. -/
def resolveEnvDark : ResolveEnv :=
  ⟨fun b => b,
   ⟨⟨some "/home/u", "linux", "amd64", "/exe", "/w"⟩,
    fun _ => ⟨false, Except.error (), false, none, false⟩, false, false⟩,
   none, fsEnvNothing, fsEnvNothing⟩

/-- Witness for C6: the first call resolves via the locator, and the
repeat call in a hostile environment returns the same path from the
cache with no locator run and no fetch. -/
theorem Ffmpeg_idempotent_witness :
    Ffmpeg resolveEnvDark (Ffmpeg resolveEnvHit "").cache =
      ⟨(Ffmpeg resolveEnvHit "").path, none, (Ffmpeg resolveEnvHit "").path,
        0, false⟩ :=
  Ffmpeg_idempotent resolveEnvHit resolveEnvDark "" rfl

/-- A download attempt whose response is a 200 with a body matching the
declared digest writes the body and returns `nil`, whatever was at the
destination before. -/
theorem downloadFile_verified (md5 : List Nat → List Nat) (B : List Nat)
    (fs : Option (List Nat)) :
    downloadFile md5
        ⟨false, Except.ok ⟨200, B, HeaderVal.digest (md5 B)⟩, false, none,
          false⟩ fs
      = (some B, none) := by
  simp [downloadFile, verifyMd5]

/-- C5: the mirror prefixes are tried in their listed order with the
empty prefix (direct URL) last; when the first mirror fails and the
second downloads a body matching its declared digest, `FetchFfmpeg`
succeeds with the second mirror's bytes at the destination — nothing of
the first mirror's attempt remains — and never contacts the third; and
when every mirror fails, the file is removed and the last attempt's
error is returned. -/
theorem FetchFfmpeg_mirror_fallback :
    mirrorList = ["https://ghfast.top/", "https://gh-proxy.com/", ""] ∧
    (∀ (md5 : List Nat → List Nat) (env : FetchEnv) (fs0 : Option (List Nat))
        (B : List Nat),
      env.mkdirFails = false → env.chmodFails = false →
      (∀ fs, ((downloadFile md5
          (env.resp ("https://ghfast.top/"
            ++ releaseUrl env.sys.goos env.sys.goarch)) fs).2).isSome
        = true) →
      env.resp ("https://gh-proxy.com/"
            ++ releaseUrl env.sys.goos env.sys.goarch)
          = ⟨false, Except.ok ⟨200, B, HeaderVal.digest (md5 B)⟩, false, none,
              false⟩ →
      FetchFfmpeg md5 env fs0 =
        ⟨(joinPath (getUserBinDir env.sys) (getFfmpegName env.sys.goos ""),
            none),
          some B,
          ["https://ghfast.top/" ++ releaseUrl env.sys.goos env.sys.goarch,
            "https://gh-proxy.com/"
              ++ releaseUrl env.sys.goos env.sys.goarch]⟩) ∧
    (∀ (md5 : List Nat → List Nat) (env : FetchEnv) (fs0 : Option (List Nat))
        (e3 : GoErr),
      env.mkdirFails = false →
      (∀ fs, ((downloadFile md5
          (env.resp ("https://ghfast.top/"
            ++ releaseUrl env.sys.goos env.sys.goarch)) fs).2).isSome
        = true) →
      (∀ fs, ((downloadFile md5
          (env.resp ("https://gh-proxy.com/"
            ++ releaseUrl env.sys.goos env.sys.goarch)) fs).2).isSome
        = true) →
      (∀ fs, (downloadFile md5
          (env.resp ("" ++ releaseUrl env.sys.goos env.sys.goarch)) fs).2
        = some e3) →
      (FetchFfmpeg md5 env fs0).result = ("", some e3) ∧
        (FetchFfmpeg md5 env fs0).file = none ∧
        (FetchFfmpeg md5 env fs0).tried =
          ["https://ghfast.top/" ++ releaseUrl env.sys.goos env.sys.goarch,
            "https://gh-proxy.com/" ++ releaseUrl env.sys.goos env.sys.goarch,
            "" ++ releaseUrl env.sys.goos env.sys.goarch]) := by
  refine ⟨rfl, ?_, ?_⟩
  · intro md5 env fs0 B hm hc h1 h2
    obtain ⟨e1, he1⟩ := Option.isSome_iff_exists.mp (h1 fs0)
    simp only [FetchFfmpeg, mirrorList, fetchLoop, hm, hc, he1, h2,
      downloadFile_verified, Bool.false_eq_true, if_false]
  · intro md5 env fs0 e3 hm h1 h2 h3
    obtain ⟨e1, he1⟩ := Option.isSome_iff_exists.mp (h1 fs0)
    obtain ⟨e2, he2⟩ := Option.isSome_iff_exists.mp
      (h2 ((downloadFile md5
        (env.resp ("https://ghfast.top/"
          ++ releaseUrl env.sys.goos env.sys.goarch)) fs0).1))
    refine ⟨?_, ?_, ?_⟩ <;>
      simp only [FetchFfmpeg, mirrorList, fetchLoop, hm, he1, he2, h3,
        Bool.false_eq_true, if_false, if_true]

/-- A download environment for the C5 witness: the first mirror answers
503, every other URL answers 200 with body `[7]` and a matching declared
digest. -/
def fetchEnvFallback : FetchEnv :=
  ⟨⟨some "/home/u", "linux", "amd64", "/exe", "/w"⟩,
   fun u =>
     if u = "https://ghfast.top/" ++ releaseUrl "linux" "amd64" then
       ⟨false, Except.ok ⟨503, [], HeaderVal.absent⟩, false, none, false⟩
     else ⟨false, Except.ok ⟨200, [7], HeaderVal.digest [7]⟩, false, none,
       false⟩,
   false, false⟩

/-- A download environment for the C5 witness in which every attempt
hits a connection error. -/
def fetchEnvAllFail : FetchEnv :=
  ⟨⟨some "/home/u", "linux", "amd64", "/exe", "/w"⟩,
   fun _ => ⟨false, Except.error (), false, none, false⟩, false, false⟩

/-- Witness for C5 at the two concrete environments. -/
theorem FetchFfmpeg_mirror_fallback_witness :
    FetchFfmpeg (fun b => b) fetchEnvFallback none =
      ⟨(joinPath (getUserBinDir fetchEnvFallback.sys)
          (getFfmpegName fetchEnvFallback.sys.goos ""), none),
        some [7],
        ["https://ghfast.top/"
            ++ releaseUrl fetchEnvFallback.sys.goos fetchEnvFallback.sys.goarch,
          "https://gh-proxy.com/"
            ++ releaseUrl fetchEnvFallback.sys.goos
                fetchEnvFallback.sys.goarch]⟩ ∧
    ((FetchFfmpeg (fun b => b) fetchEnvAllFail none).result
        = ("", some GoErr.transport) ∧
      (FetchFfmpeg (fun b => b) fetchEnvAllFail none).file = none ∧
      (FetchFfmpeg (fun b => b) fetchEnvAllFail none).tried =
        ["https://ghfast.top/"
            ++ releaseUrl fetchEnvAllFail.sys.goos fetchEnvAllFail.sys.goarch,
          "https://gh-proxy.com/"
            ++ releaseUrl fetchEnvAllFail.sys.goos fetchEnvAllFail.sys.goarch,
          ""
            ++ releaseUrl fetchEnvAllFail.sys.goos
                fetchEnvAllFail.sys.goarch]) :=
  ⟨FetchFfmpeg_mirror_fallback.2.1 (fun b => b) fetchEnvFallback none [7]
      rfl rfl (fun _ => rfl) rfl,
    FetchFfmpeg_mirror_fallback.2.2 (fun b => b) fetchEnvAllFail none
      GoErr.transport rfl (fun _ => rfl) (fun _ => rfl) (fun _ => rfl)⟩

/-- C10: for every status-200 playlist response, `m3u8GetTsUrl` returns
some segment URL and never the parse-failure error, because splitting
always yields at least one part; on the empty body the result is the
playlist URL's directory with the empty segment name appended. -/
theorem m3u8GetTsUrl_status200_ok (url body : List Char) :
    (∃ ts, m3u8GetTsUrl (Except.ok ⟨200, body⟩) url = Except.ok ts) ∧
      m3u8GetTsUrl (Except.ok ⟨200, []⟩) url = Except.ok (urlDirOf url ++ []) := by
  constructor
  · unfold m3u8GetTsUrl
    simp only [ne_eq, not_true_eq_false, if_false, reduceIte]
    have h : (splitCRLF (trimSuffix body ['\r', '\n'])).length > 0 :=
      List.length_pos.mpr (splitCRLF_ne_nil _)
    rw [dif_pos h]
    exact ⟨_, rfl⟩
  · rfl

end FfmpegHelper
